import Mathlib

/-!
Verification development for the claudebox sandbox launcher.

The repository ships two revisions of the launcher script:
the file src/claudebox.js (modelled below with the suffix V1) and a second
revision of the same script (modelled with the suffix V2) that adds the
git-config and IDE integrations.  Both are embedded faithfully; where the
two revisions disagree the theorems name the revision they speak about.

JavaScript strings are modelled as Lean String values; in the shared-tree
computation, where character-level reasoning is needed, they are modelled
as lists of characters.  The process environment is modelled as an
association list of key/value pairs (JavaScript objects preserve insertion
order for the string keys that occur here), and filesystem queries
(existence, directory test, realpath, file reads) are modelled as functions
supplied by a Host structure, since the launcher only ever calls them
point-wise.
-/

namespace Claudebox

/-- Lookup in an association-list environment, as JavaScript property access
on the environment object. -/
def envGet (l : List (String × String)) (k : String) : Option String :=
  (l.find? (fun p => p.1 == k)).map (fun p => p.2)

/-- Node path.join for the two-argument calls that occur in the source,
restricted to the shapes that occur there (no trailing separators, no
normalization needed): an empty second component returns the first. -/
def pathJoin (a b : String) : String :=
  if b = ("" : String) then a else a ++ ("/" : String) ++ b

/-- Node path.join on character lists (used by the shared-tree model). -/
def pathJoinL (a b : List Char) : List Char :=
  if b = [] then a else a ++ '/' :: b

/-- JavaScript `x || y` on an optional environment value: the fallback is
used when the variable is absent or empty (empty strings are falsy). -/
def orFalsy (o : Option String) (d : String) : String :=
  match o with
  | some s => if s = ("" : String) then d else s
  | none => d

/-! ## Shared-tree computation (main, smart filesystem sharing)

Embedding of:
```
if (realRepoRoot.startsWith(realHome + "/")) {
  const relPath = realRepoRoot.slice(realHome.length + 1);
  const topDir = relPath.split("/")[0];
  shareTree = path.join(realHome, topDir);
} else {
  shareTree = realRepoRoot;
}
```
`relPath.split("/")[0]` is the longest slash-free prefix of `relPath`. -/
def shareTree (realRepoRoot realHome : List Char) : List Char :=
  if (realHome ++ ['/']).isPrefixOf realRepoRoot then
    pathJoinL realHome
      ((realRepoRoot.drop (realHome.length + 1)).takeWhile (fun c => !(c == '/')))
  else realRepoRoot

/-- Claim C2 (amended): for a canonicalized project root that is a strict
descendant of the canonicalized home directory (root = home ++ slash ++ rel,
with the first segment of rel nonempty), the computed shared tree is home
joined with the first path segment of rel; it never equals the home
directory itself, and whenever the project root lies at least two levels
below home (rel contains a further slash) it differs from the full project
path; for a root not strictly under home the shared tree is the root
itself.  The original claim also asserted the shared tree differs from the
full project path when the project sits directly under home, which the
counterexample refutes. -/
theorem sharedTree_of_descendant (home rel : List Char)
    (htop : rel.takeWhile (fun c => !(c == '/')) ≠ []) :
    shareTree (home ++ '/' :: rel) home
      = home ++ '/' :: rel.takeWhile (fun c => !(c == '/'))
    ∧ home ++ '/' :: rel.takeWhile (fun c => !(c == '/')) ≠ home
    ∧ ('/' ∈ rel → home ++ '/' :: rel.takeWhile (fun c => !(c == '/')) ≠ home ++ '/' :: rel)
    ∧ (∀ root : List Char, (home ++ ['/']).isPrefixOf root = false → shareTree root home = root) := by
  have hpre : (home ++ ['/']).isPrefixOf (home ++ '/' :: rel) = true := by
    rw [List.isPrefixOf_iff_prefix]
    exact ⟨rel, by simp⟩
  have hdrop : (home ++ '/' :: rel).drop (home.length + 1) = rel := by
    have e : home ++ '/' :: rel = (home ++ ['/']) ++ rel := by simp
    have hlen : (home ++ ['/']).length = home.length + 1 := by simp
    rw [e, ← hlen, List.drop_left]
  refine ⟨?_, ?_, ?_, ?_⟩
  · simp only [shareTree, hpre, if_true, hdrop, pathJoinL, htop, if_neg htop]
    simp
  · intro hcontra
    have := congrArg List.length hcontra
    simp at this
  · intro hmem hcontra
    have : rel.takeWhile (fun c => !(c == '/')) = rel := by
      have := List.append_cancel_left hcontra
      exact List.cons_injective this
    rw [← this] at hmem
    have := List.mem_takeWhile_imp hmem
    simp at this
  · intro root h
    simp only [shareTree, h]
    simp

/-- Claim C2, counterexample to the claim as stated: the project root
/home/u/proj is a strict descendant of the home directory /home/u, yet the
computed shared tree equals the full project path, contradicting the
asserted "neither the home directory itself nor the full project path". -/
theorem sharedTree_depthOne_cex :
    ((("/home/u" : String).data ++ ['/']).isPrefixOf (("/home/u/proj" : String).data) = true)
    ∧ ("/home/u/proj" : String).data ≠ ("/home/u" : String).data
    ∧ shareTree (("/home/u/proj" : String).data) (("/home/u" : String).data)
        = ("/home/u/proj" : String).data := by
  decide

/-- Witness for sharedTree_of_descendant at the spec examples: project
/home/u/work/repo with home /home/u gives shared tree /home/u/work, and
project /srv/repo outside home is returned unchanged. -/
theorem sharedTree_of_descendant_witness :
    shareTree (("/home/u/work/repo" : String).data) (("/home/u" : String).data)
      = ("/home/u/work" : String).data
    ∧ ("/home/u/work" : String).data ≠ ("/home/u" : String).data
    ∧ ("/home/u/work" : String).data ≠ ("/home/u/work/repo" : String).data
    ∧ shareTree (("/srv/repo" : String).data) (("/home/u" : String).data)
        = ("/srv/repo" : String).data := by
  obtain ⟨h1, h2, h3, h4⟩ :=
    sharedTree_of_descendant (("/home/u" : String).data) (("work/repo" : String).data) (by decide)
  have e1 : ("/home/u/work/repo" : String).data
      = ("/home/u" : String).data ++ '/' :: ("work/repo" : String).data := by decide
  have e2 : ("/home/u" : String).data
        ++ '/' :: (("work/repo" : String).data).takeWhile (fun c => !(c == '/'))
      = ("/home/u/work" : String).data := by decide
  refine ⟨?_, ?_, ?_, ?_⟩
  · rw [e1, h1, e2]
  · rw [← e2]; exact h2
  · rw [← e2, e1]; exact h3 (by decide)
  · exact h4 _ (by decide)

/-! ## Configuration resolution (loadConfig + parseArgs)

Embedding of the config merge.  `loadConfig` reads the JSON config file and
spreads it over CONFIG_DEFAULTS (all-false): a field is an Option Bool at
the file layer, none when the file is missing, malformed, or lacks the
field; this post-JSON layer is `FileConfig` and the spread is
`resolveConfig`.  `parseArgs` walks the CLI tokens accumulating
`CliOverrides` (undefined means not specified); unknown options exit 1 and
help exits 0, modelled as `Except.error` with the exit code.  The merge is
the chain of ternaries `cli !== undefined ? cli : config.field`.  The
second revision's five capability fields are modelled; the first revision
restricts the same logic to three of them. -/
inductive CapField
  | sshAgent
  | gpgAgent
  | gitConfig
  | xdgRuntime
  | ide
deriving DecidableEq, Repr

structure FileConfig where
  allowSshAgent : Option Bool
  allowGpgAgent : Option Bool
  allowGitConfig : Option Bool
  allowXdgRuntime : Option Bool
  allowIde : Option Bool
deriving DecidableEq, Repr

structure CliOverrides where
  allowSshAgent : Option Bool
  allowGpgAgent : Option Bool
  allowGitConfig : Option Bool
  allowXdgRuntime : Option Bool
  allowIde : Option Bool
deriving DecidableEq, Repr

structure ResolvedOptions where
  allowSshAgent : Bool
  allowGpgAgent : Bool
  allowGitConfig : Bool
  allowXdgRuntime : Bool
  allowIde : Bool
deriving DecidableEq, Repr

def FileConfig.get : FileConfig → CapField → Option Bool
  | f, .sshAgent => f.allowSshAgent
  | f, .gpgAgent => f.allowGpgAgent
  | f, .gitConfig => f.allowGitConfig
  | f, .xdgRuntime => f.allowXdgRuntime
  | f, .ide => f.allowIde

def CliOverrides.get : CliOverrides → CapField → Option Bool
  | c, .sshAgent => c.allowSshAgent
  | c, .gpgAgent => c.allowGpgAgent
  | c, .gitConfig => c.allowGitConfig
  | c, .xdgRuntime => c.allowXdgRuntime
  | c, .ide => c.allowIde

def ResolvedOptions.get : ResolvedOptions → CapField → Bool
  | o, .sshAgent => o.allowSshAgent
  | o, .gpgAgent => o.allowGpgAgent
  | o, .gitConfig => o.allowGitConfig
  | o, .xdgRuntime => o.allowXdgRuntime
  | o, .ide => o.allowIde

def initCli : CliOverrides :=
  { allowSshAgent := none, allowGpgAgent := none, allowGitConfig := none
    allowXdgRuntime := none, allowIde := none }

def collectCli : List String → CliOverrides → Except Nat CliOverrides
  | [], acc => .ok acc
  | arg :: rest, acc =>
    if arg = ("--allow-ssh-agent" : String) then
      collectCli rest { acc with allowSshAgent := some true }
    else if arg = ("--allow-gpg-agent" : String) then
      collectCli rest { acc with allowGpgAgent := some true }
    else if arg = ("--allow-git-config" : String) then
      collectCli rest { acc with allowGitConfig := some true }
    else if arg = ("--allow-xdg-runtime" : String) then
      collectCli rest { acc with allowXdgRuntime := some true }
    else if arg = ("--allow-ide" : String) then
      collectCli rest { acc with allowIde := some true }
    else if arg = ("-h" : String) ∨ arg = ("--help" : String) then
      Except.error 0
    else
      Except.error 1

def resolveConfig (file : FileConfig) : ResolvedOptions :=
  { allowSshAgent := file.allowSshAgent.getD false
    allowGpgAgent := file.allowGpgAgent.getD false
    allowGitConfig := file.allowGitConfig.getD false
    allowXdgRuntime := file.allowXdgRuntime.getD false
    allowIde := file.allowIde.getD false }

def mergeOptions (cli : CliOverrides) (config : ResolvedOptions) : ResolvedOptions :=
  { allowSshAgent := cli.allowSshAgent.getD config.allowSshAgent
    allowGpgAgent := cli.allowGpgAgent.getD config.allowGpgAgent
    allowGitConfig := cli.allowGitConfig.getD config.allowGitConfig
    allowXdgRuntime := cli.allowXdgRuntime.getD config.allowXdgRuntime
    allowIde := cli.allowIde.getD config.allowIde }

def parseArgs (file : FileConfig) (args : List String) : Except Nat ResolvedOptions :=
  (collectCli args initCli).map (fun cli => mergeOptions cli (resolveConfig file))

theorem mergeOptions_get (cli : CliOverrides) (config : ResolvedOptions) (f : CapField) :
    (mergeOptions cli config).get f = (cli.get f).getD (config.get f) := by
  cases f <;> rfl

theorem resolveConfig_get (file : FileConfig) (f : CapField) :
    (resolveConfig file).get f = (file.get f).getD false := by
  cases f <;> rfl

theorem collectCli_monotone (args : List String) :
    ∀ (acc cli : CliOverrides), collectCli args acc = Except.ok cli →
      ∀ f, cli.get f = acc.get f ∨ cli.get f = some true := by
  induction args with
  | nil =>
    intro acc cli h f
    simp [collectCli] at h
    subst h
    exact Or.inl rfl
  | cons a rest ih =>
    intro acc cli h f
    simp only [collectCli] at h
    split_ifs at h <;>
      first
        | exact absurd h (by simp)
        | (rcases ih _ _ h f with h' | h'
           exacts [by cases f <;> simp_all [CliOverrides.get], Or.inr h'])

/-- Claim C3 (confirmed): for every capability field, for every config-file
content and accepted CLI argument list, the resolved option equals the CLI
value when the CLI specifies one (the CLI layer stores an Option so that
unspecified is distinguished from explicitly false), otherwise the file
value when the file provides one, otherwise the built-in default false;
the merge is applied independently per field. -/
theorem parseArgs_precedence (file : FileConfig) (args : List String) (cli : CliOverrides)
    (hc : collectCli args initCli = Except.ok cli) :
    parseArgs file args = Except.ok (mergeOptions cli (resolveConfig file))
    ∧ ∀ f : CapField,
        (∀ v, cli.get f = some v → (mergeOptions cli (resolveConfig file)).get f = v)
        ∧ (cli.get f = none →
            (∀ w, file.get f = some w → (mergeOptions cli (resolveConfig file)).get f = w)
            ∧ (file.get f = none → (mergeOptions cli (resolveConfig file)).get f = false)) := by
  refine ⟨by simp [parseArgs, hc, Except.map], ?_⟩
  intro f
  constructor
  · intro v hv
    rw [mergeOptions_get, hv, Option.getD_some]
  · intro hn
    rw [mergeOptions_get, hn, Option.getD_none, resolveConfig_get]
    constructor
    · intro w hw
      rw [hw, Option.getD_some]
    · intro hfn
      rw [hfn, Option.getD_none]

/-- Claim C10 (confirmed): an accepted CLI argument list can only set
capability overrides to some true (never to false), so for every accepted
argument list and every config-file content the resolved capability option
is greater than or equal to the value from the config-file layer. -/
theorem parseArgs_cli_monotone (file : FileConfig) (args : List String) (cli : CliOverrides)
    (hc : collectCli args initCli = Except.ok cli) :
    parseArgs file args = Except.ok (mergeOptions cli (resolveConfig file))
    ∧ ∀ f : CapField,
        (cli.get f = none ∨ cli.get f = some true)
        ∧ (resolveConfig file).get f ≤ (mergeOptions cli (resolveConfig file)).get f := by
  refine ⟨by simp [parseArgs, hc, Except.map], ?_⟩
  intro f
  have hm := collectCli_monotone args initCli cli hc f
  have hinit : initCli.get f = none := by cases f <;> rfl
  rw [hinit] at hm
  refine ⟨hm, ?_⟩
  rw [mergeOptions_get]
  rcases hm with h' | h'
  · rw [h', Option.getD_none]
  · rw [h', Option.getD_some]
    exact Bool.le_true _

def fileSample : FileConfig :=
  { allowSshAgent := some false, allowGpgAgent := some true, allowGitConfig := none
    allowXdgRuntime := none, allowIde := none }

def cliSample : CliOverrides :=
  { allowSshAgent := some true, allowGpgAgent := none, allowGitConfig := none
    allowXdgRuntime := none, allowIde := none }

/-- Witness for parseArgs_precedence: file enabling gpg-agent and
explicitly disabling ssh-agent, CLI passing --allow-ssh-agent; the CLI
wins for ssh-agent, the file value stands for gpg-agent, the default
false stands for the ide field. -/
theorem parseArgs_precedence_witness :
    parseArgs fileSample ["--allow-ssh-agent"] = Except.ok (mergeOptions cliSample (resolveConfig fileSample))
    ∧ (mergeOptions cliSample (resolveConfig fileSample)).get CapField.sshAgent = true
    ∧ (mergeOptions cliSample (resolveConfig fileSample)).get CapField.gpgAgent = true
    ∧ (mergeOptions cliSample (resolveConfig fileSample)).get CapField.ide = false := by
  obtain ⟨h1, h2⟩ := parseArgs_precedence fileSample (["--allow-ssh-agent"]) cliSample rfl
  refine ⟨h1, (h2 CapField.sshAgent).1 true rfl, ?_, ?_⟩
  · exact ((h2 CapField.gpgAgent).2 rfl).1 true rfl
  · exact ((h2 CapField.ide).2 rfl).2 rfl

/-- Witness for parseArgs_cli_monotone at the same concrete file and
argument list. -/
theorem parseArgs_cli_monotone_witness :
    parseArgs fileSample ["--allow-ssh-agent"] = Except.ok (mergeOptions cliSample (resolveConfig fileSample))
    ∧ (resolveConfig fileSample).get CapField.sshAgent
        ≤ (mergeOptions cliSample (resolveConfig fileSample)).get CapField.sshAgent
    ∧ (resolveConfig fileSample).get CapField.gpgAgent
        ≤ (mergeOptions cliSample (resolveConfig fileSample)).get CapField.gpgAgent := by
  obtain ⟨h1, h2⟩ := parseArgs_cli_monotone fileSample (["--allow-ssh-agent"]) cliSample rfl
  exact ⟨h1, (h2 CapField.sshAgent).2, (h2 CapField.gpgAgent).2⟩

/-! ## Namespace (bubblewrap) backend

Both revisions of BubblewrapSandbox.wrap are embedded.  Each `args.push`
call of the source becomes one directive; `BArg.flatten` recovers the
literal argument strings.  The Host structure carries the process
environment and the point-wise filesystem queries the wrap code makes;
`sshSanitizeReal` is `some realCfgPath` when the ssh_config sanitizing
block of the first revision succeeds (the file exists and the
read/sanitize/write raised nothing), `none` when that block is skipped or
its errors are swallowed. -/

structure SandboxConfig where
  claudeHome : String
  claudeConfig : String
  claudeJson : String
  shareTree : String
  repoRoot : String
  allowSshAgent : Bool
  allowGpgAgent : Bool
  allowGitConfig : Bool
  allowXdgRuntime : Bool
  allowIde : Bool
deriving DecidableEq, Repr

structure Host where
  envList : List (String × String)
  pathExistsFn : String → Bool
  isDirFn : String → Bool
  uid : Nat
  sshSanitizeReal : Option String

inductive BArg where
  | dev (p : String)
  | proc (p : String)
  | roBindTry (src dst : String)
  | roBind (src dst : String)
  | bind (src dst : String)
  | tmpfs (p : String)
  | unshareAll
  | shareNet
  | setenv (key val : String)
deriving DecidableEq, Repr

def BArg.flatten : BArg → List String
  | .dev p => ["--dev", p]
  | .proc p => ["--proc", p]
  | .roBindTry s d => ["--ro-bind-try", s, d]
  | .roBind s d => ["--ro-bind", s, d]
  | .bind s d => ["--bind", s, d]
  | .tmpfs p => ["--tmpfs", p]
  | .unshareAll => ["--unshare-all"]
  | .shareNet => ["--share-net"]
  | .setenv k v => ["--setenv", k, v]

structure WrapResult where
  cmd : String
  args : List String
  env : List (String × String)
deriving DecidableEq, Repr

def SANDBOX_SSH_SOCK : String := "/tmp/ssh-agent.sock"

def baseBinds : List BArg :=
  [BArg.dev ("/dev"), BArg.proc ("/proc"),
   BArg.roBindTry ("/usr") ("/usr"), BArg.roBindTry ("/bin") ("/bin"),
   BArg.roBindTry ("/lib") ("/lib"), BArg.roBindTry ("/lib64") ("/lib64"),
   BArg.roBind ("/etc") ("/etc"),
   BArg.roBindTry ("/run/systemd/resolve") ("/run/systemd/resolve"),
   BArg.roBindTry ("/run/current-system") ("/run/current-system"),
   BArg.roBindTry ("/run/booted-system") ("/run/booted-system"),
   BArg.roBindTry ("/run/opengl-driver") ("/run/opengl-driver"),
   BArg.roBindTry ("/run/opengl-driver-32") ("/run/opengl-driver-32"),
   BArg.roBindTry ("/run/nixos") ("/run/nixos"),
   BArg.roBindTry ("/run/wrappers") ("/run/wrappers"),
   BArg.roBind ("/nix") ("/nix"),
   BArg.bind ("/nix/var/nix/daemon-socket") ("/nix/var/nix/daemon-socket")]

/-- XDG_RUNTIME_DIR with the JavaScript fallback to /run/user/$uid. -/
def xdgRuntimeDirOf (h : Host) : String :=
  orFalsy (envGet h.envList ("XDG_RUNTIME_DIR")) (("/run/user/") ++ toString h.uid)

/-- Directive list of BubblewrapSandbox.wrap in the first revision
(src/claudebox.js): sanitized ssh_config override, fixed-path ssh-agent
rebind guarded only by its own flag, gpg narrow bind in the else-if of the
broad XDG bind. -/
def bwrapDirectivesV1 (c : SandboxConfig) (h : Host) : List BArg :=
  let home := (envGet h.envList ("HOME")).getD ("")
  let user := (envGet h.envList ("USER")).getD ("")
  let pathEnv := (envGet h.envList ("PATH")).getD ("")
  let sshCfgChunk : List BArg :=
    match h.sshSanitizeReal with
    | some realCfg => [BArg.roBind (pathJoin c.claudeHome ("ssh_config")) realCfg]
    | none => []
  let homeEnvChunk : List BArg :=
    [BArg.tmpfs ("/tmp"),
     BArg.bind c.claudeHome home,
     BArg.bind c.claudeConfig (pathJoin home (".claude")),
     BArg.bind c.claudeJson (pathJoin home (".claude.json")),
     BArg.unshareAll, BArg.shareNet,
     BArg.setenv ("HOME") home, BArg.setenv ("USER") user,
     BArg.setenv ("PATH") pathEnv,
     BArg.setenv ("TMPDIR") ("/tmp"), BArg.setenv ("TEMPDIR") ("/tmp"),
     BArg.setenv ("TEMP") ("/tmp"), BArg.setenv ("TMP") ("/tmp")]
  let shareChunk := if c.shareTree ≠ c.repoRoot then [BArg.roBind c.shareTree c.shareTree] else []
  let projChunk := [BArg.bind c.repoRoot c.repoRoot]
  let xdgDir := xdgRuntimeDirOf h
  let xdgChunk :=
    if c.allowXdgRuntime then
      (if h.isDirFn xdgDir then
        [BArg.roBind xdgDir xdgDir, BArg.setenv ("XDG_RUNTIME_DIR") xdgDir]
      else [])
    else if c.allowGpgAgent then
      (if h.isDirFn (pathJoin xdgDir ("gnupg")) then
        [BArg.roBind (pathJoin xdgDir ("gnupg")) (pathJoin xdgDir ("gnupg"))]
      else [])
    else []
  let sshChunk :=
    if c.allowSshAgent then
      match envGet h.envList ("SSH_AUTH_SOCK") with
      | some sock =>
          if sock ≠ ("" : String) ∧ h.pathExistsFn sock then
            [BArg.bind sock SANDBOX_SSH_SOCK, BArg.setenv ("SSH_AUTH_SOCK") SANDBOX_SSH_SOCK]
          else []
      | none => []
    else []
  baseBinds ++ sshCfgChunk ++ homeEnvChunk ++ shareChunk ++ projChunk ++ xdgChunk ++ sshChunk

/-- WrapResult of the first revision: the inherited environment is copied
and its SSH_AUTH_SOCK entry deleted. -/
def wrapV1 (c : SandboxConfig) (h : Host) (script : String) : WrapResult :=
  { cmd := "bwrap"
    args := (bwrapDirectivesV1 c h).flatMap BArg.flatten ++ ["bash", "-c", script]
    env := h.envList.filter (fun p => !(p.1 == ("SSH_AUTH_SOCK"))) }

/-- Directive list of BubblewrapSandbox.wrap in the second revision:
git-config and IDE binds, narrow ssh/gpg socket exposure only in the else
branch of the broad XDG bind (ssh bound read-only at its original path). -/
def bwrapDirectivesV2 (c : SandboxConfig) (h : Host) : List BArg :=
  let home := (envGet h.envList ("HOME")).getD ("")
  let user := (envGet h.envList ("USER")).getD ("")
  let pathEnv := (envGet h.envList ("PATH")).getD ("")
  let gitChunk : List BArg :=
    if c.allowGitConfig then
      (if h.pathExistsFn (pathJoin home (".gitconfig")) then
        [BArg.roBind (pathJoin home (".gitconfig")) (pathJoin home (".gitconfig"))]
      else []) ++
      (if h.isDirFn (pathJoin (pathJoin home (".config")) ("git")) then
        [BArg.roBind (pathJoin (pathJoin home (".config")) ("git"))
          (pathJoin (pathJoin home (".config")) ("git"))]
      else [])
    else []
  let homeEnvChunk : List BArg :=
    [BArg.tmpfs ("/tmp"),
     BArg.bind c.claudeHome home,
     BArg.bind c.claudeConfig (pathJoin home (".claude")),
     BArg.bind c.claudeJson (pathJoin home (".claude.json"))]
    ++ gitChunk ++
    [BArg.unshareAll, BArg.shareNet,
     BArg.setenv ("HOME") home, BArg.setenv ("USER") user,
     BArg.setenv ("PATH") pathEnv,
     BArg.setenv ("TMPDIR") ("/tmp"), BArg.setenv ("TEMPDIR") ("/tmp"),
     BArg.setenv ("TEMP") ("/tmp"), BArg.setenv ("TMP") ("/tmp")]
  let shareChunk := if c.shareTree ≠ c.repoRoot then [BArg.roBind c.shareTree c.shareTree] else []
  let projChunk := [BArg.bind c.repoRoot c.repoRoot]
  let xdgDir := xdgRuntimeDirOf h
  let xdgChunk :=
    if c.allowXdgRuntime then
      (if h.isDirFn xdgDir then
        [BArg.roBind xdgDir xdgDir, BArg.setenv ("XDG_RUNTIME_DIR") xdgDir]
      else [])
    else
      (if c.allowSshAgent then
        match envGet h.envList ("SSH_AUTH_SOCK") with
        | some sock =>
            if sock ≠ ("" : String) ∧ h.pathExistsFn sock then
              [BArg.roBind sock sock, BArg.setenv ("SSH_AUTH_SOCK") sock]
            else []
        | none => []
      else []) ++
      (if c.allowGpgAgent then
        (if h.isDirFn (pathJoin xdgDir ("gnupg")) then
          [BArg.roBind (pathJoin xdgDir ("gnupg")) (pathJoin xdgDir ("gnupg"))]
        else [])
      else [])
  let ideChunk :=
    if c.allowIde then
      (if h.isDirFn (pathJoin (pathJoin home (".claude")) ("ide")) then
        [BArg.roBind (pathJoin (pathJoin home (".claude")) ("ide"))
          (pathJoin (pathJoin home (".claude")) ("ide"))]
      else [])
    else []
  baseBinds ++ homeEnvChunk ++ shareChunk ++ projChunk ++ xdgChunk ++ ideChunk

/-- WrapResult of the second revision: the process environment is passed
through unchanged. -/
def wrapV2 (c : SandboxConfig) (h : Host) (script : String) : WrapResult :=
  { cmd := "bwrap"
    args := (bwrapDirectivesV2 c h).flatMap BArg.flatten ++ ["bash", "-c", script]
    env := h.envList }

/-- Removing the entries of one key from an association list does not
change lookups of any other key. -/
theorem find?_key_filter (l : List (String × String)) (k k0 : String)
    (hk : (k == k0) = false) :
    (l.filter (fun p => !(p.1 == k0))).find? (fun p => p.1 == k)
      = l.find? (fun p => p.1 == k) := by
  induction l with
  | nil => rfl
  | cons a t ih =>
    by_cases ha : (a.1 == k) = true
    · have hak : a.1 = k := eq_of_beq ha
      have ha0 : (a.1 == k0) = false := by rw [hak]; exact hk
      simp [List.filter_cons, ha0, List.find?_cons, ha]
    · by_cases hb : (a.1 == k0) = true
      · simp [List.filter_cons, hb, List.find?_cons, ha, ih]
      · simp [List.filter_cons, hb, List.find?_cons, ha, ih]

theorem envGet_eq_of_filter_eq {l₁ l₂ : List (String × String)} {k0 : String}
    (hf : l₁.filter (fun p => !(p.1 == k0)) = l₂.filter (fun p => !(p.1 == k0)))
    {k : String} (hk : (k == k0) = false) :
    envGet l₁ k = envGet l₂ k := by
  unfold envGet
  rw [← find?_key_filter l₁ k k0 hk, ← find?_key_filter l₂ k k0 hk, hf]

/-- Claim C1 (amended): with the ssh-agent capability disabled, in the
first revision (src/claudebox.js) the WrapResult environment carries no
SSH_AUTH_SOCK binding at all, the directive list contains no setenv for
SSH_AUTH_SOCK, and two host environments that agree outside their
SSH_AUTH_SOCK entries yield identical WrapResults; in the second revision
the directive list likewise contains no setenv for SSH_AUTH_SOCK, but the
emitted environment is the host environment passed through unchanged, so a
host SSH_AUTH_SOCK binding persists there (see the counterexample). -/
theorem sshAgentDisabled_envHygiene (c : SandboxConfig) (h : Host) (script : String)
    (hssh : c.allowSshAgent = false) :
    envGet (wrapV1 c h script).env ("SSH_AUTH_SOCK") = none
    ∧ (∀ v, BArg.setenv ("SSH_AUTH_SOCK") v ∉ bwrapDirectivesV1 c h)
    ∧ (∀ l₂ : List (String × String),
        h.envList.filter (fun p => !(p.1 == ("SSH_AUTH_SOCK")))
          = l₂.filter (fun p => !(p.1 == ("SSH_AUTH_SOCK"))) →
        wrapV1 c h script = wrapV1 c { h with envList := l₂ } script)
    ∧ (∀ v, BArg.setenv ("SSH_AUTH_SOCK") v ∉ bwrapDirectivesV2 c h)
    ∧ (wrapV2 c h script).env = h.envList := by
  refine ⟨?_, ?_, ?_, ?_, rfl⟩
  · show envGet (h.envList.filter (fun p => !(p.1 == ("SSH_AUTH_SOCK")))) ("SSH_AUTH_SOCK") = none
    unfold envGet
    rw [List.find?_eq_none.mpr]
    · rfl
    · intro x hx
      have := (List.mem_filter.mp hx).2
      simp_all
  · intro v hv
    rcases hcs : h.sshSanitizeReal with _ | realCfg <;>
      simp only [bwrapDirectivesV1, hssh, hcs, List.append_assoc, List.mem_append, baseBinds] at hv <;>
      rcases hv with hv | hv | hv | hv | hv | hv <;>
      (try split_ifs at hv) <;> simp_all
  · intro l₂ hf
    have hHOME : envGet h.envList ("HOME") = envGet l₂ ("HOME") :=
      envGet_eq_of_filter_eq hf (by decide)
    have hUSER : envGet h.envList ("USER") = envGet l₂ ("USER") :=
      envGet_eq_of_filter_eq hf (by decide)
    have hPATH : envGet h.envList ("PATH") = envGet l₂ ("PATH") :=
      envGet_eq_of_filter_eq hf (by decide)
    have hXDG : envGet h.envList ("XDG_RUNTIME_DIR") = envGet l₂ ("XDG_RUNTIME_DIR") :=
      envGet_eq_of_filter_eq hf (by decide)
    have hdir : bwrapDirectivesV1 c h = bwrapDirectivesV1 c { h with envList := l₂ } := by
      simp [bwrapDirectivesV1, xdgRuntimeDirOf, hHOME, hUSER, hPATH, hXDG, hssh]
    simp [wrapV1, hdir, hf]
  · intro v hv
    simp only [bwrapDirectivesV2, hssh, List.append_assoc, List.mem_append, baseBinds] at hv
    rcases hv with hv | hv | hv | hv | hv | hv | hv | hv <;>
      (try split_ifs at hv) <;> simp_all

def cexHost : Host :=
  { envList := [(("SSH_AUTH_SOCK"), ("/run/user/1000/keyring/ssh")), (("HOME"), ("/home/u"))]
    pathExistsFn := fun _ => true
    isDirFn := fun _ => true
    uid := 1000
    sshSanitizeReal := none }

def cexConfig : SandboxConfig :=
  { claudeHome := "/tmp/claudebox-aabbccdd"
    claudeConfig := "/home/u/.claude"
    claudeJson := "/home/u/.claude.json"
    shareTree := "/home/u/work"
    repoRoot := "/home/u/work/repo"
    allowSshAgent := false
    allowGpgAgent := false
    allowGitConfig := false
    allowXdgRuntime := false
    allowIde := false }

/-- Claim C1, counterexample to the claim as stated: in the second
revision the wrap passes process.env through without deleting
SSH_AUTH_SOCK, so with the flag disabled and the variable set on the host
the emitted environment still binds SSH_AUTH_SOCK to the host socket
path. -/
theorem sshAgentDisabled_envLeak_cexV2 :
    cexConfig.allowSshAgent = false
    ∧ envGet (wrapV2 cexConfig cexHost ("run")).env ("SSH_AUTH_SOCK")
        = some ("/run/user/1000/keyring/ssh") := by
  exact ⟨rfl, rfl⟩

/-- Witness for sshAgentDisabled_envHygiene at a concrete configuration
and host. -/
theorem sshAgentDisabled_envHygiene_witness :
    envGet (wrapV1 cexConfig cexHost ("run")).env ("SSH_AUTH_SOCK") = none
    ∧ BArg.setenv ("SSH_AUTH_SOCK") ("/x") ∉ bwrapDirectivesV1 cexConfig cexHost
    ∧ BArg.setenv ("SSH_AUTH_SOCK") ("/x") ∉ bwrapDirectivesV2 cexConfig cexHost
    ∧ (wrapV2 cexConfig cexHost ("run")).env = cexHost.envList := by
  obtain ⟨h1, h2, h3, h4, h5⟩ := sshAgentDisabled_envHygiene cexConfig cexHost ("run") rfl
  exact ⟨h1, h2 ("/x"), h4 ("/x"), h5⟩

/-- Claim C4 (amended): in the second revision, when the broad XDG-runtime
flag is on the wrap output does not depend on the narrow ssh-agent and
gpg-agent flags at all (redundant, not additive), no setenv for
SSH_AUTH_SOCK is emitted, the broad read-only bind plus XDG_RUNTIME_DIR
propagation is emitted when the runtime directory exists, and no
socket-style read-only self-bind of any path other than the read-only
sources actually pushed can appear; in the first revision only the narrow
gpg bind is superseded — its ssh-agent bind is independent of the broad
flag (see the counterexample). -/
theorem xdgBroadSupersedesNarrow (c : SandboxConfig) (h : Host) (script : String)
    (hx : c.allowXdgRuntime = true) :
    (∀ b1 b2 : Bool,
      wrapV2 { c with allowSshAgent := b1, allowGpgAgent := b2 } h script = wrapV2 c h script)
    ∧ (∀ v, BArg.setenv ("SSH_AUTH_SOCK") v ∉ bwrapDirectivesV2 c h)
    ∧ (h.isDirFn (xdgRuntimeDirOf h) = true →
        BArg.roBind (xdgRuntimeDirOf h) (xdgRuntimeDirOf h) ∈ bwrapDirectivesV2 c h
        ∧ BArg.setenv ("XDG_RUNTIME_DIR") (xdgRuntimeDirOf h) ∈ bwrapDirectivesV2 c h)
    ∧ (∀ sock, sock ≠ ("/etc") → sock ≠ ("/nix")
        → sock ≠ pathJoin ((envGet h.envList ("HOME")).getD ("")) (".gitconfig")
        → sock ≠ pathJoin (pathJoin ((envGet h.envList ("HOME")).getD ("")) (".config")) ("git")
        → sock ≠ c.shareTree
        → sock ≠ xdgRuntimeDirOf h
        → sock ≠ pathJoin (pathJoin ((envGet h.envList ("HOME")).getD ("")) (".claude")) ("ide")
        → BArg.roBind sock sock ∉ bwrapDirectivesV2 c h)
    ∧ (∀ b2 : Bool,
      wrapV1 { c with allowGpgAgent := b2 } h script = wrapV1 c h script) := by
  refine ⟨?_, ?_, ?_, ?_, ?_⟩
  · intro b1 b2
    simp [wrapV2, bwrapDirectivesV2, hx]
  · intro v hv
    simp only [bwrapDirectivesV2, hx, List.append_assoc, List.mem_append, baseBinds] at hv
    rcases hv with hv | hv | hv | hv | hv | hv | hv | hv <;>
      (try split_ifs at hv) <;> simp_all
  · intro hd
    constructor <;> simp [bwrapDirectivesV2, hx, hd]
  · intro sock h1 h2 h3 h4 h5 h6 h7 hv
    simp only [bwrapDirectivesV2, hx, List.append_assoc, List.mem_append, baseBinds] at hv
    rcases hv with hv | hv | hv | hv | hv | hv | hv | hv <;>
      (try split_ifs at hv) <;> simp_all
  · intro b2
    simp [wrapV1, bwrapDirectivesV1, hx]

def cexHost4 : Host :=
  { envList := [(("SSH_AUTH_SOCK"), ("/hostsock")), (("XDG_RUNTIME_DIR"), ("/run/user/1000")),
      (("HOME"), ("/home/u"))]
    pathExistsFn := fun _ => true
    isDirFn := fun _ => true
    uid := 1000
    sshSanitizeReal := none }

def cexConfig4 : SandboxConfig :=
  { claudeHome := "/tmp/claudebox-aabbccdd"
    claudeConfig := "/home/u/.claude"
    claudeJson := "/home/u/.claude.json"
    shareTree := "/home/u/work"
    repoRoot := "/home/u/work/repo"
    allowSshAgent := true
    allowGpgAgent := false
    allowGitConfig := false
    allowXdgRuntime := true
    allowIde := false }

/-- Claim C4, counterexample to the claim as stated: in the first
revision the ssh-agent block is independent of the XDG-runtime block, so
with both flags on the wrap adds the narrow ssh-agent socket bind and its
setenv in addition to the broad XDG bind. -/
theorem xdgBroad_sshStillAdded_cexV1 :
    cexConfig4.allowXdgRuntime = true
    ∧ cexConfig4.allowSshAgent = true
    ∧ BArg.bind ("/hostsock") SANDBOX_SSH_SOCK ∈ bwrapDirectivesV1 cexConfig4 cexHost4
    ∧ BArg.setenv ("SSH_AUTH_SOCK") SANDBOX_SSH_SOCK ∈ bwrapDirectivesV1 cexConfig4 cexHost4 := by
  refine ⟨rfl, rfl, ?_, ?_⟩ <;> decide

/-- Witness for xdgBroadSupersedesNarrow at a concrete configuration with
both narrow flags enabled alongside the broad flag. -/
theorem xdgBroadSupersedesNarrow_witness :
    wrapV2 { cexConfig4 with allowSshAgent := false, allowGpgAgent := false } cexHost4 ("run")
      = wrapV2 cexConfig4 cexHost4 ("run")
    ∧ BArg.roBind ("/run/user/1000") ("/run/user/1000") ∈ bwrapDirectivesV2 cexConfig4 cexHost4
    ∧ BArg.setenv ("SSH_AUTH_SOCK") ("/hostsock") ∉ bwrapDirectivesV2 cexConfig4 cexHost4
    ∧ BArg.roBind ("/hostsock") ("/hostsock") ∉ bwrapDirectivesV2 cexConfig4 cexHost4 := by
  obtain ⟨ha, hb, hc, hd, he⟩ := xdgBroadSupersedesNarrow cexConfig4 cexHost4 ("run") rfl
  refine ⟨ha false false, ?_, hb ("/hostsock"), ?_⟩
  · exact (hc rfl).1
  · exact hd ("/hostsock") (by decide) (by decide) (by decide) (by decide) (by decide)
      (by decide) (by decide)

/-! ## Profile (Seatbelt) backend

Embedding of SeatbeltSandbox.wrap.  The Darwin host supplies the
environment, realpathSync, readFileSync and the existence test; a missing
or unreadable profile is the Except.error case (fatal before any spawn). -/

structure DarwinHost where
  envList : List (String × String)
  pathExistsFn : String → Bool
  realpathFn : String → String
  readFileFn : String → String

def getTmpDir (h : DarwinHost) : String :=
  orFalsy (envGet h.envList ("TMPDIR"))
    (orFalsy (envGet h.envList ("TEMP")) (orFalsy (envGet h.envList ("TMP")) ("/tmp")))

def seatbeltWritablePaths (canonicalTmpdir canonicalSlashTmp : String) : List String :=
  ["(subpath (param \"PROJECT_DIR\"))", "(subpath (param \"TMPDIR\"))"]
  ++ (if canonicalTmpdir ≠ canonicalSlashTmp then ["(subpath (param \"SLASH_TMP\"))"] else [])

def seatbeltExtraParams (canonicalTmpdir canonicalSlashTmp : String) : List String :=
  if canonicalTmpdir ≠ canonicalSlashTmp then [("-DSLASH_TMP=") ++ canonicalSlashTmp] else []

def seatbeltDynamicPolicy (writablePaths : List String) : String :=
  ("\n; Allow read-only file operations\n(allow file-read*)\n\n; Allow writes to project and temp directories\n(allow file-write*\n  ")
  ++ String.intercalate ("\n  ") writablePaths
  ++ (")\n\n; Network access for Claude API\n(allow network-outbound)\n(allow network-inbound)\n(allow system-socket)\n")

def seatbeltWrap (c : SandboxConfig) (h : DarwinHost) (script : String) : Except String WrapResult :=
  match envGet h.envList ("CLAUDEBOX_SEATBELT_PROFILE") with
  | none =>
    Except.error ("Seatbelt profile not found. Set CLAUDEBOX_SEATBELT_PROFILE environment variable.")
  | some prof =>
    if prof = ("" : String) ∨ h.pathExistsFn prof = false then
      Except.error ("Seatbelt profile not found. Set CLAUDEBOX_SEATBELT_PROFILE environment variable.")
    else
      let basePolicy := h.readFileFn prof
      let canonicalTmpdir := h.realpathFn (getTmpDir h)
      let canonicalSlashTmp := h.realpathFn ("/tmp")
      Except.ok
        { cmd := "/usr/bin/sandbox-exec"
          args := [("-p"),
              basePolicy ++ ("\n")
                ++ seatbeltDynamicPolicy (seatbeltWritablePaths canonicalTmpdir canonicalSlashTmp),
              ("-DPROJECT_DIR=") ++ h.realpathFn c.repoRoot,
              ("-DTMPDIR=") ++ canonicalTmpdir]
            ++ seatbeltExtraParams canonicalTmpdir canonicalSlashTmp
            ++ [("--"), ("bash"), ("-c"), script]
          env := h.envList }

/-- Claim C8 (confirmed): the generated Seatbelt policy's writable
clauses and the sandbox-exec parameter arguments include the separate
SLASH_TMP entry exactly when the canonicalized temp directory differs from
the canonicalized absolute temp root, and both are omitted when they
coincide; under a present, nonempty, readable profile the wrap result is
fully characterized in terms of those two conditional lists. -/
theorem seatbeltSlashTmp (ct cs : String) :
    (("(subpath (param \"SLASH_TMP\"))") ∈ seatbeltWritablePaths ct cs ↔ ct ≠ cs)
    ∧ ((("-DSLASH_TMP=") ++ cs) ∈ seatbeltExtraParams ct cs ↔ ct ≠ cs)
    ∧ (∀ (c : SandboxConfig) (h : DarwinHost) (script prof : String),
        envGet h.envList ("CLAUDEBOX_SEATBELT_PROFILE") = some prof →
        prof ≠ ("" : String) →
        h.pathExistsFn prof = true →
        seatbeltWrap c h script = Except.ok
          { cmd := "/usr/bin/sandbox-exec"
            args := [("-p"),
                h.readFileFn prof ++ ("\n")
                  ++ seatbeltDynamicPolicy
                      (seatbeltWritablePaths (h.realpathFn (getTmpDir h)) (h.realpathFn ("/tmp"))),
                ("-DPROJECT_DIR=") ++ h.realpathFn c.repoRoot,
                ("-DTMPDIR=") ++ h.realpathFn (getTmpDir h)]
              ++ seatbeltExtraParams (h.realpathFn (getTmpDir h)) (h.realpathFn ("/tmp"))
              ++ [("--"), ("bash"), ("-c"), script]
            env := h.envList }) := by
  refine ⟨⟨?_, ?_⟩, ⟨?_, ?_⟩, ?_⟩
  · intro hmem
    simp only [seatbeltWritablePaths, List.mem_append, List.mem_cons,
      List.not_mem_nil] at hmem
    rcases hmem with hmem | hmem
    · rcases hmem with hmem | hmem
      · exact absurd hmem (by decide)
      · rcases hmem with hmem | hmem
        · exact absurd hmem (by decide)
        · simp at hmem
    · split_ifs at hmem with hc
      · exact hc
      · simp at hmem
  · intro hne
    simp [seatbeltWritablePaths, hne]
  · intro hmem
    simp only [seatbeltExtraParams] at hmem
    split_ifs at hmem with hc
    · exact hc
    · simp at hmem
  · intro hne
    simp [seatbeltExtraParams, hne]
  · intro c h script prof h1 h2 h3
    have hcond : ¬(prof = ("" : String) ∨ h.pathExistsFn prof = false) := by
      rintro (hc | hc)
      · exact h2 hc
      · rw [h3] at hc
        exact absurd hc (by decide)
    simp [seatbeltWrap, h1, hcond]

def darwinHostSample : DarwinHost :=
  { envList := [(("CLAUDEBOX_SEATBELT_PROFILE"), ("/share/claudebox/seatbelt.sbpl")),
      (("TMPDIR"), ("/private/var/folders/zz/T"))]
    pathExistsFn := fun _ => true
    realpathFn := fun p => p
    readFileFn := fun _ => ("(version 1)") }

/-- Witness for seatbeltSlashTmp: a macOS-style host whose TMPDIR
canonicalizes away from /tmp includes the SLASH_TMP clause, while
coinciding paths omit clause and parameter; the full wrap output at the
sample host. -/
theorem seatbeltSlashTmp_witness :
    (("(subpath (param \"SLASH_TMP\"))")
        ∈ seatbeltWritablePaths ("/private/var/folders/zz/T") ("/private/tmp"))
    ∧ (("(subpath (param \"SLASH_TMP\"))")
        ∉ seatbeltWritablePaths ("/private/tmp") ("/private/tmp"))
    ∧ ((("-DSLASH_TMP=") ++ ("/private/tmp"))
        ∉ seatbeltExtraParams ("/private/tmp") ("/private/tmp"))
    ∧ seatbeltWrap cexConfig4 darwinHostSample ("run") = Except.ok
        { cmd := "/usr/bin/sandbox-exec"
          args := [("-p"),
              ("(version 1)") ++ ("\n")
                ++ seatbeltDynamicPolicy
                    (seatbeltWritablePaths ("/private/var/folders/zz/T") ("/tmp")),
              ("-DPROJECT_DIR=") ++ ("/home/u/work/repo"),
              ("-DTMPDIR=") ++ ("/private/var/folders/zz/T")]
            ++ seatbeltExtraParams ("/private/var/folders/zz/T") ("/tmp")
            ++ [("--"), ("bash"), ("-c"), ("run")]
          env := darwinHostSample.envList } := by
  refine ⟨?_, ?_, ?_, ?_⟩
  · exact (seatbeltSlashTmp ("/private/var/folders/zz/T") ("/private/tmp")).1.mpr (by decide)
  · intro hmem
    exact (seatbeltSlashTmp ("/private/tmp") ("/private/tmp")).1.mp hmem rfl
  · intro hmem
    exact (seatbeltSlashTmp ("/private/tmp") ("/private/tmp")).2.1.mp hmem rfl
  · exact (seatbeltSlashTmp ("") ("")).2.2 cexConfig4 darwinHostSample ("run")
      ("/share/claudebox/seatbelt.sbpl") rfl (by decide) rfl

/-! ## Launcher and dry run

Embedding of Sandbox.dryRun and the dry-run branch at the end of main in
src/claudebox.js.  The single-quote character is written via its code
point.  The JavaScript whitespace class of the quoting regex is modelled
by its ASCII members (the arguments produced by this program contain no
exotic Unicode spaces). -/

def squoteChar : Char := Char.ofNat 39

def needsShellQuote (a : String) : Bool :=
  a.data.any (fun ch =>
    ch == ' ' || ch == Char.ofNat 9 || ch == Char.ofNat 10 || ch == Char.ofNat 11
      || ch == Char.ofNat 12 || ch == Char.ofNat 13 || ch == squoteChar || ch == '"')

/-- Global replacement of the single-quote character by the four-character
escape sequence quote backslash quote quote. -/
def shellEscapeQuote (a : String) : String :=
  String.mk (a.data.flatMap (fun ch =>
    if ch == squoteChar then [squoteChar, '\\', squoteChar, squoteChar] else [ch]))

def shellQuote (a : String) : String :=
  if needsShellQuote a then
    String.mk [squoteChar] ++ shellEscapeQuote a ++ String.mk [squoteChar]
  else a

/-- Environment delta of Sandbox.dryRun: entries of the sandbox
environment whose value differs from the current environment (including
keys absent there), followed by the keys of the current environment absent
from the sandbox environment, marked deleted. -/
def dryRunDiffEnv (env cur : List (String × String)) : List (String × String) :=
  env.filter (fun p => !(envGet cur p.1 == some p.2))
  ++ (cur.filter (fun p => envGet env p.1 == none)).map (fun p => (p.1, ("(deleted)")))

def dryRunLines (wr : WrapResult) (cur : List (String × String)) : List String :=
  (if (dryRunDiffEnv wr.env cur).isEmpty then [] else
    ("# Environment changes:")
      :: (dryRunDiffEnv wr.env cur).map (fun p => ("#   ") ++ p.1 ++ ("=") ++ p.2))
  ++ [String.intercalate (" \\\n  ") ((wr.cmd :: wr.args).map shellQuote)]

inductive LaunchOutcome where
  | spawned (wr : WrapResult)
  | exited (code : Nat) (output : List String)
deriving DecidableEq, Repr

/-- Tail of main: on dry run, print the delta and the quoted command,
clean up and exit 0; otherwise hand the WrapResult to spawn. -/
def launch (dryRun : Bool) (wr : WrapResult) (cur : List (String × String)) : LaunchOutcome :=
  if dryRun then LaunchOutcome.exited 0 (dryRunLines wr cur)
  else LaunchOutcome.spawned wr

/-- Claim C7 (confirmed): with the dry-run flag set the launcher never
produces a spawned child for any WrapResult (even one whose real spawn
would fail) and exits 0; its output is the environment delta against the
current process environment — added or changed entries, plus current keys
absent from the sandbox environment marked deleted — followed, as the last
line, by the full command line with each argument shell-quoted when it
contains whitespace or quote characters. -/
theorem dryRunNeverSpawns (wr : WrapResult) (cur : List (String × String)) :
    launch true wr cur = LaunchOutcome.exited 0 (dryRunLines wr cur)
    ∧ (∀ wr', launch true wr cur ≠ LaunchOutcome.spawned wr')
    ∧ (∀ k v, (k, v) ∈ dryRunDiffEnv wr.env cur ↔
        (((k, v) ∈ wr.env ∧ envGet cur k ≠ some v)
        ∨ (v = ("(deleted)") ∧ envGet wr.env k = none ∧ ∃ w, (k, w) ∈ cur)))
    ∧ (dryRunLines wr cur).getLast? =
        some (String.intercalate (" \\\n  ") ((wr.cmd :: wr.args).map shellQuote)) := by
  refine ⟨rfl, ?_, ?_, ?_⟩
  · intro wr' hcontra
    simp [launch] at hcontra
  · intro k v
    constructor
    · intro hmem
      rcases List.mem_append.mp hmem with hmem | hmem
      · have := List.mem_filter.mp hmem
        left
        refine ⟨this.1, ?_⟩
        have hb := this.2
        simp at hb
        exact hb
      · rcases List.mem_map.mp hmem with ⟨p, hp, hpe⟩
        have hpf := List.mem_filter.mp hp
        right
        have hk : p.1 = k := congrArg Prod.fst hpe
        have hv : v = ("(deleted)") := (congrArg Prod.snd hpe).symm
        refine ⟨hv, ?_, ⟨p.2, ?_⟩⟩
        · rw [← hk]
          simpa using hpf.2
        · rw [← hk]
          exact hpf.1
    · intro hor
      rcases hor with ⟨hmem, hne⟩ | ⟨hv, hnone, ⟨w, hw⟩⟩
      · exact List.mem_append.mpr (Or.inl (List.mem_filter.mpr ⟨hmem, by simpa using hne⟩))
      · refine List.mem_append.mpr (Or.inr ?_)
        refine List.mem_map.mpr ⟨(k, w), List.mem_filter.mpr ⟨hw, by simpa using hnone⟩, ?_⟩
        rw [hv]
  · by_cases hE : (dryRunDiffEnv wr.env cur).isEmpty = true
    · simp [dryRunLines, hE]
    · simp only [dryRunLines, hE, Bool.false_eq_true, if_false]
      exact List.getLast?_concat _

def wrSample : WrapResult :=
  { cmd := "bwrap"
    args := [("--dev"), ("/dev"), ("bash"), ("-c"), ("cd /p && run it")]
    env := [(("HOME"), ("/home/u"))] }

def curSample : List (String × String) := [(("OLD"), ("1")), (("HOME"), ("/home/u"))]

/-- Witness for dryRunNeverSpawns at a concrete WrapResult and current
environment: the run exits 0, the stale key is reported deleted, and no
spawn outcome is possible. -/
theorem dryRunNeverSpawns_witness :
    launch true wrSample curSample = LaunchOutcome.exited 0 (dryRunLines wrSample curSample)
    ∧ ((("OLD"), ("(deleted)")) ∈ dryRunDiffEnv wrSample.env curSample)
    ∧ (∀ wr', launch true wrSample curSample ≠ LaunchOutcome.spawned wr') := by
  obtain ⟨h1, h2, h3, h4⟩ := dryRunNeverSpawns wrSample curSample
  refine ⟨h1, ?_, h2⟩
  exact (h3 ("OLD") ("(deleted)")).mpr
    (Or.inr ⟨rfl, by decide, ⟨("1"), by decide⟩⟩)

/-! ## Session cleanup and signal handling

The cleanup closure is fs.rmSync(claudeHome, recursive + force) inside a
try/catch: force plus the swallowed errors make it total.  The filesystem
is modelled as the set of present paths; recursive removal deletes the
directory and every path below it.  The SIGINT/SIGTERM handlers registered
in main are modelled as the literal sequence of the two primitive effects
each performs, executed over a process state. -/

def FsState : Type := String → Bool

def underDir (dir p : String) : Bool :=
  p == dir || (dir ++ ("/")).data.isPrefixOf p.data

def rmRecursiveForce (dir : String) (s : FsState) : FsState :=
  fun p => s p && !(underDir dir p)

inductive SigAction where
  | runCleanup
  | exitWith (code : Nat)
deriving DecidableEq, Repr

def sigintActions : List SigAction := [SigAction.runCleanup, SigAction.exitWith 130]

def sigtermActions : List SigAction := [SigAction.runCleanup, SigAction.exitWith 143]

structure ProcState where
  claudeHome : String
  fs : FsState
  exitStatus : Option Nat
  childStatus : Option Nat

def applyAction (s : ProcState) : SigAction → ProcState
  | SigAction.runCleanup => { s with fs := rmRecursiveForce s.claudeHome s.fs }
  | SigAction.exitWith code => { s with exitStatus := some code }

def runActions (acts : List SigAction) (s : ProcState) : ProcState :=
  acts.foldl applyAction s

/-- Claim C6 (confirmed): the interrupt handler performs session cleanup
and then exits with status 130 = 128 + 2, the terminate handler performs
cleanup and then exits with status 143 = 128 + 15; both statuses are
independent of any child status in the state, and in each handler the
cleanup action strictly precedes the exit action. -/
theorem signalExitCodes (s : ProcState) :
    (runActions sigintActions s).exitStatus = some (128 + 2)
    ∧ (runActions sigtermActions s).exitStatus = some (128 + 15)
    ∧ (runActions sigintActions s).fs = rmRecursiveForce s.claudeHome s.fs
    ∧ (runActions sigtermActions s).fs = rmRecursiveForce s.claudeHome s.fs
    ∧ (∀ cs, (runActions sigintActions { s with childStatus := cs }).exitStatus = some 130
        ∧ (runActions sigtermActions { s with childStatus := cs }).exitStatus = some 143)
    ∧ (∃ i j : Nat, i < j
        ∧ sigintActions[i]? = some SigAction.runCleanup
        ∧ sigintActions[j]? = some (SigAction.exitWith 130)
        ∧ sigtermActions[i]? = some SigAction.runCleanup
        ∧ sigtermActions[j]? = some (SigAction.exitWith 143)) := by
  refine ⟨rfl, rfl, rfl, rfl, fun cs => ⟨rfl, rfl⟩, ⟨0, 1, ?_, rfl, rfl, rfl, rfl⟩⟩
  decide

/-- Claim C9 (confirmed): session cleanup is total on every filesystem
state (force + swallowed errors), idempotent — any positive number of
invocations equals one — and after one invocation no path at or below the
session directory remains. -/
theorem cleanupIdempotent (claudeHome : String) (s : FsState) :
    rmRecursiveForce claudeHome (rmRecursiveForce claudeHome s) = rmRecursiveForce claudeHome s
    ∧ (∀ n : Nat, 1 ≤ n →
        Nat.iterate (rmRecursiveForce claudeHome) n s = rmRecursiveForce claudeHome s)
    ∧ (∀ p, underDir claudeHome p = true → rmRecursiveForce claudeHome s p = false) := by
  have hidem : ∀ t : FsState,
      rmRecursiveForce claudeHome (rmRecursiveForce claudeHome t) = rmRecursiveForce claudeHome t := by
    intro t
    funext p
    unfold rmRecursiveForce
    cases t p <;> cases underDir claudeHome p <;> rfl
  refine ⟨hidem s, ?_, ?_⟩
  · intro n hn
    induction n with
    | zero => exact absurd hn (by decide)
    | succ m ih =>
      rcases Nat.eq_zero_or_pos m with hm | hm
      · subst hm
        rfl
      · rw [Function.iterate_succ_apply', ih hm, hidem]
  · intro p hp
    unfold rmRecursiveForce
    rw [hp]
    cases s p <;> rfl

def fsSample : FsState :=
  fun p => p == ("/tmp/claudebox-ab/x") || p == ("/home/u/keep")

/-- Witness for cleanupIdempotent on a concrete partially-populated
filesystem: double cleanup equals single cleanup, the session file is
gone, unrelated paths survive. -/
theorem cleanupIdempotent_witness :
    Nat.iterate (rmRecursiveForce ("/tmp/claudebox-ab")) 2 fsSample
      = rmRecursiveForce ("/tmp/claudebox-ab") fsSample
    ∧ rmRecursiveForce ("/tmp/claudebox-ab") fsSample ("/tmp/claudebox-ab/x") = false
    ∧ rmRecursiveForce ("/tmp/claudebox-ab") fsSample ("/home/u/keep") = true := by
  obtain ⟨h1, h2, h3⟩ := cleanupIdempotent ("/tmp/claudebox-ab") fsSample
  exact ⟨h2 2 (by decide), h3 ("/tmp/claudebox-ab/x") (by decide), by decide⟩

/-! ## IDE auth token selection (readIdeAuthToken, second revision)

The lock-file directory is modelled as its listing: name, mtimeMs, and the
outcome of JSON-parsing the file — `token = some t` when parsing succeeds
and the authToken field is truthy (a nonempty string), `none` when the file
fails to parse, lacks the field, or holds a falsy value, in which case the
source continues to the next candidate exactly as the model does.  The
port-hint branch checks existence and then reads that very file, modelled
as lookup in the listing.  JavaScript's stable sort by the comparator
b.mtime - a.mtime is modelled by a stable descending insertion sort. -/

def allDigits (cs : List Char) : Bool :=
  !cs.isEmpty && cs.all (fun c => c.isDigit)

/-- Lock-file name filter of the fallback scan, regex digits optionally
followed by a .lock suffix. -/
def isLockName (s : String) : Bool :=
  if (".lock").data.isSuffixOf s.data then
    allDigits (s.data.take (s.data.length - 5))
  else allDigits s.data

/-- Port-hint validity, regex all-digits. -/
def isNumericStr (s : String) : Bool :=
  allDigits s.data

structure IdeFile where
  name : String
  mtime : Nat
  token : Option String
deriving DecidableEq, Repr

structure IdeHost where
  ideDirIsDir : Bool
  ssePort : Option String
  readdirOk : Bool
  files : List IdeFile
deriving DecidableEq, Repr

def findIdeFile (files : List IdeFile) (n : String) : Option IdeFile :=
  files.find? (fun f => f.name == n)

/-- The CLAUDE_CODE_SSE_PORT branch: try port.lock then port, returning
the first parseable truthy auth token. -/
def hintToken (h : IdeHost) : Option String :=
  match h.ssePort with
  | some p =>
    if isNumericStr p then
      [p ++ (".lock"), p].findSome? (fun n => (findIdeFile h.files n).bind (fun f => f.token))
    else none
  | none => none

def insertByMtime (f : IdeFile) : List IdeFile → List IdeFile
  | [] => [f]
  | g :: rest => if f.mtime ≤ g.mtime then g :: insertByMtime f rest else f :: g :: rest

def sortByMtimeDesc (l : List IdeFile) : List IdeFile :=
  l.foldl (fun acc f => insertByMtime f acc) []

def newestToken (files : List IdeFile) : Option String :=
  (sortByMtimeDesc files).findSome? (fun f => f.token)

def readIdeAuthToken (h : IdeHost) : Option String :=
  if !h.ideDirIsDir then none
  else
    match hintToken h with
    | some t => some t
    | none =>
      if h.readdirOk then newestToken (h.files.filter (fun f => isLockName f.name))
      else none

/-- Insertion preserves membership. -/
theorem mem_insertByMtime (f x : IdeFile) (l : List IdeFile) :
    x ∈ insertByMtime f l ↔ x = f ∨ x ∈ l := by
  induction l with
  | nil => simp [insertByMtime]
  | cons g rest ih =>
    unfold insertByMtime
    split_ifs
    · simp only [List.mem_cons, ih]
      tauto
    · simp only [List.mem_cons]
      try tauto

/-- Insertion preserves descending mtime order. -/
theorem pairwise_insertByMtime (f : IdeFile) (l : List IdeFile)
    (hl : l.Pairwise (fun a b => b.mtime ≤ a.mtime)) :
    (insertByMtime f l).Pairwise (fun a b => b.mtime ≤ a.mtime) := by
  induction l with
  | nil => simp [insertByMtime]
  | cons g rest ih =>
    rcases List.pairwise_cons.mp hl with ⟨hg, hrest⟩
    unfold insertByMtime
    split_ifs with hle
    · refine List.pairwise_cons.mpr ⟨?_, ih hrest⟩
      intro y hy
      rcases (mem_insertByMtime f y rest).mp hy with rfl | hy
      · exact hle
      · exact hg y hy
    · refine List.pairwise_cons.mpr ⟨?_, hl⟩
      intro y hy
      rcases List.mem_cons.mp hy with rfl | hy
      · exact Nat.le_of_lt (Nat.lt_of_not_le hle)
      · exact Nat.le_trans (hg y hy) (Nat.le_of_lt (Nat.lt_of_not_le hle))

theorem mem_sortByMtimeDesc (l : List IdeFile) (x : IdeFile) :
    x ∈ sortByMtimeDesc l ↔ x ∈ l := by
  suffices h : ∀ acc, (x ∈ l.foldl (fun acc f => insertByMtime f acc) acc ↔ x ∈ acc ∨ x ∈ l) by
    simpa [sortByMtimeDesc] using h []
  induction l with
  | nil =>
    intro acc
    simp
  | cons g rest ih =>
    intro acc
    simp only [List.foldl_cons]
    rw [ih (insertByMtime g acc)]
    rw [mem_insertByMtime]
    simp only [List.mem_cons]
    tauto

theorem pairwise_sortByMtimeDesc (l : List IdeFile) :
    (sortByMtimeDesc l).Pairwise (fun a b => b.mtime ≤ a.mtime) := by
  suffices h : ∀ acc, acc.Pairwise (fun a b => b.mtime ≤ a.mtime) →
      (l.foldl (fun acc f => insertByMtime f acc) acc).Pairwise (fun a b => b.mtime ≤ a.mtime) by
    exact h [] (by simp)
  induction l with
  | nil =>
    intro acc hacc
    simpa using hacc
  | cons g rest ih =>
    intro acc hacc
    simp only [List.foldl_cons]
    exact ih _ (pairwise_insertByMtime g acc hacc)

/-- In a descending-mtime list, the first file carrying a token has
maximal mtime among all files carrying tokens. -/
theorem findSome?_token_max (l : List IdeFile) (t : String)
    (hl : l.Pairwise (fun a b => b.mtime ≤ a.mtime))
    (hf : l.findSome? (fun f => f.token) = some t) :
    ∃ f, f ∈ l ∧ f.token = some t
      ∧ ∀ g ∈ l, g.token ≠ none → g.mtime ≤ f.mtime := by
  induction l with
  | nil => simp at hf
  | cons a rest ih =>
    rcases List.pairwise_cons.mp hl with ⟨ha, hrest⟩
    rcases hatok : a.token with _ | u
    · rw [List.findSome?_cons, hatok] at hf
      obtain ⟨f, hfm, hft, hmax⟩ := ih hrest hf
      refine ⟨f, List.mem_cons_of_mem _ hfm, hft, ?_⟩
      intro g hg hgt
      rcases List.mem_cons.mp hg with rfl | hg
      · exact absurd hatok hgt
      · exact hmax g hg hgt
    · rw [List.findSome?_cons, hatok] at hf
      obtain rfl : u = t := Option.some.inj hf
      refine ⟨a, List.mem_cons_self a rest, hatok, ?_⟩
      intro g hg _
      rcases List.mem_cons.mp hg with rfl | hg
      · exact Nat.le_refl _
      · exact ha g hg

/-- Claim C5 (confirmed): the IDE token selection first honours a numeric
session port hint, returning that lock file's token when it parses; with
no usable hint it returns a token of a candidate lock file whose
modification time is maximal among all candidates that parse and contain a
token (so with times t1 < t2 < t3 and all parseable, the t3 file's token);
and when no candidate yields a token the operation returns none rather
than failing. -/
theorem ideTokenSelection (h : IdeHost) :
    (∀ t, h.ideDirIsDir = true → hintToken h = some t → readIdeAuthToken h = some t)
    ∧ (∀ p f t, h.ideDirIsDir = true → h.ssePort = some p → isNumericStr p = true →
        findIdeFile h.files (p ++ (".lock")) = some f → f.token = some t →
        readIdeAuthToken h = some t)
    ∧ (∀ t, h.ideDirIsDir = true → hintToken h = none → h.readdirOk = true →
        readIdeAuthToken h = some t →
        ∃ f, f ∈ h.files ∧ isLockName f.name = true ∧ f.token = some t
          ∧ ∀ g ∈ h.files, isLockName g.name = true → g.token ≠ none → g.mtime ≤ f.mtime)
    ∧ ((∀ f ∈ h.files, f.token = none) → readIdeAuthToken h = none) := by
  refine ⟨?_, ?_, ?_, ?_⟩
  · intro t hd hh
    simp [readIdeAuthToken, hd, hh]
  · intro p f t hd hsse hnum hfind htok
    have hh : hintToken h = some t := by
      simp [hintToken, hsse, hnum, List.findSome?_cons, hfind, htok]
    simp [readIdeAuthToken, hd, hh]
  · intro t hd hh hread hres
    simp only [readIdeAuthToken, hd, Bool.not_true, Bool.false_eq_true, if_false, hh,
      hread, if_true] at hres
    obtain ⟨f, hfm, hft, hmax⟩ :=
      findSome?_token_max _ t (pairwise_sortByMtimeDesc _) hres
    have hfm' := (mem_sortByMtimeDesc _ _).mp hfm
    have hffil := List.mem_filter.mp hfm'
    refine ⟨f, hffil.1, hffil.2, hft, ?_⟩
    intro g hg hlock hgt
    exact hmax g ((mem_sortByMtimeDesc _ _).mpr (List.mem_filter.mpr ⟨hg, hlock⟩)) hgt
  · intro hall
    have hh : hintToken h = none := by
      unfold hintToken
      rcases hsse : h.ssePort with _ | p
      · simp only [hsse]
      · simp only [hsse]
        split_ifs
        · apply List.findSome?_eq_none_iff.mpr
          intro n hn
          rcases hfind : findIdeFile h.files n with _ | f
          · rfl
          · have hfmem := List.mem_of_find?_eq_some hfind
            simp [hall f hfmem]
        · rfl
    unfold readIdeAuthToken
    rw [hh]
    rcases hd : h.ideDirIsDir with _ | _
    · simp only [hd, Bool.not_false, if_true]
    · simp only [hd, Bool.not_true, Bool.false_eq_true, if_false]
      split_ifs
      · apply List.findSome?_eq_none_iff.mpr
        intro f hf
        have := (mem_sortByMtimeDesc _ _).mp hf
        exact hall f (List.mem_filter.mp this).1
      · rfl

def ideHostSample : IdeHost :=
  { ideDirIsDir := true
    ssePort := none
    readdirOk := true
    files := [{ name := ("100.lock"), mtime := 1, token := some ("tok1") },
              { name := ("300.lock"), mtime := 3, token := some ("tok3") },
              { name := ("200.lock"), mtime := 2, token := some ("tok2") }] }

/-- Witness for ideTokenSelection: three parseable lock files with
modification times 1 < 2 < 3 and no port hint; the newest file's token is
selected and it realizes the maximality property. -/
theorem ideTokenSelection_witness :
    readIdeAuthToken ideHostSample = some ("tok3")
    ∧ ∃ f, f ∈ ideHostSample.files ∧ isLockName f.name = true ∧ f.token = some ("tok3")
        ∧ ∀ g ∈ ideHostSample.files, isLockName g.name = true → g.token ≠ none →
            g.mtime ≤ f.mtime := by
  have hres : readIdeAuthToken ideHostSample = some ("tok3") := by decide
  exact ⟨hres,
    (ideTokenSelection ideHostSample).2.2.1 ("tok3") rfl (by decide) rfl hres⟩

end Claudebox
